import Mathlib

/-!
# Verification of the SiYuan kernel boot / workspace core (`kernel/util`)

Shallow embedding of the functions in `kernel/util/working.go` and
`kernel/util/session.go` of the `xiazhihou/siyuan` repository, together with
theorems settling the specification claims about them.

Conventions:
* Go `int32` (`atomic.Int32`) is modelled as `Int` with an explicit wrap
  into the signed 32-bit range (`wrap32`) at every arithmetic step.
* Side effects (filesystem, environment, process exit) are modelled by
  explicit state records and result types.
* Names follow the Go source where Lean allows it.
-/

namespace SiYuan

/-- `Ver` constant from `working.go`. -/
def Ver : String := "3.1.11"

/-! ## Boot progress (`bootProgress`, `bootDetails` in `working.go`)

`bootProgress` is an `atomic.Int32`; `bootDetails` is a string guarded by a
mutex.  We model the pair as a record and each exported function as a state
transformer; a serialized execution of concurrent calls is a `List.foldl`
over the operations. -/

/-- Signed 32-bit wrap-around, the semantics of Go `int32` addition. -/
def wrap32 (x : Int) : Int := (x + 2 ^ 31) % 2 ^ 32 - 2 ^ 31

/-- The process-wide boot state: `bootProgress` (an `atomic.Int32`) and
`bootDetails` (a mutex-guarded string). -/
structure BootState where
  bootProgress : Int
  bootDetails : String
deriving DecidableEq, Repr

/-- Initial boot state: progress `0`, empty details. -/
def initBootState : BootState := { bootProgress := 0, bootDetails := "" }

/-- `setBootDetails` (unexported): prefixes the details with the version tag. -/
def setBootDetails (details : String) (s : BootState) : BootState :=
  { s with bootDetails := "v" ++ Ver ++ " " ++ details }

/-- `SetBootDetails`: no-op once progress reached 100, otherwise updates the
details only. -/
def SetBootDetails (details : String) (s : BootState) : BootState :=
  if 100 ≤ s.bootProgress then s else setBootDetails details s

/-- `IncBootProgress`: no-op once progress reached 100, otherwise adds the
delta to the `int32` progress counter and updates the details. -/
def IncBootProgress (progress : Int) (details : String) (s : BootState) : BootState :=
  if 100 ≤ s.bootProgress then s
  else setBootDetails details { s with bootProgress := wrap32 (s.bootProgress + progress) }

/-- `IsBooted`: progress is at least 100. -/
def IsBooted (s : BootState) : Bool := 100 ≤ s.bootProgress

/-- `GetBootProgress`. -/
def GetBootProgress (s : BootState) : Int := s.bootProgress

/-- `SetBooted`: sets the finishing message and stores exactly 100. -/
def SetBooted (s : BootState) : BootState :=
  { setBootDetails "Finishing boot..." s with bootProgress := 100 }

/-- One serialized call against the boot state. -/
inductive BootOp where
  | inc (delta : Int) (details : String)
  | setDetails (details : String)
  | setBooted
deriving DecidableEq, Repr

/-- Apply one serialized call. -/
def bootStep (s : BootState) (op : BootOp) : BootState :=
  match op with
  | .inc d det => IncBootProgress d det s
  | .setDetails det => SetBootDetails det s
  | .setBooted => SetBooted s

/-- Run a serialization of calls from a starting state. -/
def runBoot (s : BootState) (ops : List BootOp) : BootState := ops.foldl bootStep s

/-- A delta small enough that the 32-bit counter cannot overflow: positive
and at most `2^31 - 100` (any add happens at a progress of at most 99). -/
def deltaOK : BootOp → Bool
  | .inc d _ => 0 < d && d ≤ 2 ^ 31 - 100
  | _ => true

theorem wrap32_eq_self {x : Int} (h0 : -2 ^ 31 ≤ x) (h1 : x < 2 ^ 31) : wrap32 x = x := by
  have hnn : 0 ≤ x + 2 ^ 31 := by linarith
  have hlt : x + 2 ^ 31 < 2 ^ 32 := by norm_num at h1 ⊢; linarith
  unfold wrap32
  rw [Int.emod_eq_of_lt hnn hlt]
  ring

theorem bootStep_bound {s : BootState} {op : BootOp} (hop : deltaOK op = true)
    (h0 : 0 ≤ s.bootProgress) (h1 : s.bootProgress < 2 ^ 31) :
    0 ≤ (bootStep s op).bootProgress ∧ (bootStep s op).bootProgress < 2 ^ 31 := by
  cases op with
  | inc d det =>
    simp only [deltaOK, Bool.and_eq_true, decide_eq_true_eq] at hop
    obtain ⟨hd0, hd1⟩ := hop
    simp only [bootStep, IncBootProgress]
    split
    · exact ⟨h0, h1⟩
    · rename_i hlt
      push_neg at hlt
      have hw : wrap32 (s.bootProgress + d) = s.bootProgress + d := by
        apply wrap32_eq_self
        · have : (0 : Int) ≤ 2 ^ 31 := by norm_num
          linarith
        · linarith
      simp only [setBootDetails, hw]
      refine ⟨by linarith, by linarith⟩
  | setDetails det =>
    simp only [bootStep, SetBootDetails]
    split
    · exact ⟨h0, h1⟩
    · simpa [setBootDetails] using ⟨h0, h1⟩
  | setBooted =>
    simp only [bootStep, SetBooted, setBootDetails]
    norm_num

theorem runBoot_bound {ops : List BootOp} (hops : ∀ o ∈ ops, deltaOK o = true)
    {s : BootState} (h0 : 0 ≤ s.bootProgress) (h1 : s.bootProgress < 2 ^ 31) :
    0 ≤ (runBoot s ops).bootProgress ∧ (runBoot s ops).bootProgress < 2 ^ 31 := by
  induction ops generalizing s with
  | nil => exact ⟨h0, h1⟩
  | cons op ops ih =>
    have h := bootStep_bound (hops op (by simp)) h0 h1
    exact ih (fun o ho => hops o (by simp [ho])) h.1 h.2

/-- `runIncs`: a serialization of `IncBootProgress` calls only. -/
def runIncs (s : BootState) (calls : List (Int × String)) : BootState :=
  calls.foldl (fun t c => IncBootProgress c.1 c.2 t) s

/-- A positive delta that cannot overflow the 32-bit counter. -/
def goodDelta (d : Int) : Bool := 0 < d && d ≤ 2 ^ 31 - 100

/-- The deltas a serialization actually applies when the running total starts
at `acc`: the shortest prefix whose running total reaches 100 (every later
call hits the `100 ≤ bootProgress` guard and is dropped). -/
def appliedPrefix (acc : Int) : List Int → List Int
  | [] => []
  | d :: ds => if 100 ≤ acc then [] else d :: appliedPrefix (acc + d) ds

theorem runIncs_booted (calls : List (Int × String)) :
    ∀ s : BootState, 100 ≤ s.bootProgress → runIncs s calls = s := by
  induction calls with
  | nil => intro s _; rfl
  | cons c calls ih =>
    intro s hb
    have hstep : runIncs s (c :: calls) = runIncs (IncBootProgress c.1 c.2 s) calls := rfl
    rw [hstep, IncBootProgress, if_pos hb]
    exact ih s hb

theorem runIncs_progress (calls : List (Int × String)) :
    ∀ s : BootState, (∀ c ∈ calls, goodDelta c.1 = true) →
    0 ≤ s.bootProgress → s.bootProgress < 2 ^ 31 →
    (runIncs s calls).bootProgress =
      s.bootProgress + (appliedPrefix s.bootProgress (calls.map Prod.fst)).sum := by
  induction calls with
  | nil => intro s _ _ _; simp [runIncs, appliedPrefix]
  | cons c calls ih =>
    intro s hg h0 h1
    by_cases hb : 100 ≤ s.bootProgress
    · rw [runIncs_booted _ _ hb]
      simp [appliedPrefix, hb]
    · obtain ⟨hd0, hd1⟩ : 0 < c.1 ∧ c.1 ≤ 2 ^ 31 - 100 := by
        simpa [goodDelta, Bool.and_eq_true, decide_eq_true_eq] using hg c (by simp)
      push_neg at hb
      have hw : wrap32 (s.bootProgress + c.1) = s.bootProgress + c.1 := by
        apply wrap32_eq_self
        · have h31 : (0 : Int) ≤ 2 ^ 31 := by norm_num
          linarith
        · linarith
      have hstep : runIncs s (c :: calls) = runIncs (IncBootProgress c.1 c.2 s) calls := rfl
      have hsp : (IncBootProgress c.1 c.2 s).bootProgress = s.bootProgress + c.1 := by
        rw [IncBootProgress, if_neg (not_le.mpr hb)]
        simp [setBootDetails, hw]
      rw [hstep, ih _ (fun x hx => hg x (by simp [hx])) (by rw [hsp]; linarith)
        (by rw [hsp]; linarith), hsp]
      simp only [List.map_cons, appliedPrefix, if_neg (not_le.mpr hb), List.sum_cons]
      ring

theorem appliedPrefix_sum_ge (ds : List Int) :
    ∀ acc : Int, 100 ≤ acc + ds.sum → 100 ≤ acc + (appliedPrefix acc ds).sum := by
  induction ds with
  | nil => intro acc h; simpa [appliedPrefix] using h
  | cons d ds ih =>
    intro acc h
    by_cases hb : 100 ≤ acc
    · simp [appliedPrefix, hb]
    · simp only [appliedPrefix, if_neg hb, List.sum_cons]
      have hrec := ih (acc + d) (by simp only [List.sum_cons] at h; linarith)
      linarith

/-- C3 (amended): along any serialization of `IncBootProgress` (positive,
non-overflowing delta) and `SetBootDetails` calls from the initial state, no
`IncBootProgress` or `SetBootDetails` call ever lowers the stored progress,
and once progress reached 100 those calls are no-ops on the whole state;
`SetBooted` stores exactly 100 (and may therefore lower an overshot value). -/
theorem C3_boot_progress_monotone (ops : List BootOp) (op : BootOp)
    (hops : ∀ o ∈ ops, deltaOK o = true) (hop : deltaOK op = true) :
    (op ≠ BootOp.setBooted →
      (runBoot initBootState ops).bootProgress ≤
        (bootStep (runBoot initBootState ops) op).bootProgress) ∧
    (100 ≤ (runBoot initBootState ops).bootProgress → op ≠ BootOp.setBooted →
      bootStep (runBoot initBootState ops) op = runBoot initBootState ops) ∧
    (op = BootOp.setBooted → (bootStep (runBoot initBootState ops) op).bootProgress = 100) := by
  have hb := runBoot_bound hops (s := initBootState) (by decide) (by decide)
  set s := runBoot initBootState ops with hs
  refine ⟨?_, ?_, ?_⟩
  · intro hne
    cases op with
    | inc d det =>
      simp only [deltaOK, Bool.and_eq_true, decide_eq_true_eq] at hop
      obtain ⟨hd0, hd1⟩ := hop
      simp only [bootStep, IncBootProgress]
      split
      · exact le_refl _
      · rename_i h
        push_neg at h
        have hw : wrap32 (s.bootProgress + d) = s.bootProgress + d := by
          apply wrap32_eq_self
          · have h31 : (0 : Int) ≤ 2 ^ 31 := by norm_num
            linarith [hb.1]
          · linarith
        simp only [setBootDetails, hw]
        linarith
    | setDetails det =>
      simp only [bootStep, SetBootDetails]
      split
      · exact le_refl _
      · simp [setBootDetails]
    | setBooted => exact absurd rfl hne
  · intro h100 hne
    cases op with
    | inc d det => simp only [bootStep, IncBootProgress, if_pos h100]
    | setDetails det => simp only [bootStep, SetBootDetails, if_pos h100]
    | setBooted => exact absurd rfl hne
  · intro he
    subst he
    simp [bootStep, SetBooted, setBootDetails]

/-- Witness for `C3_boot_progress_monotone` at a concrete serialization. -/
theorem C3_boot_progress_monotone_witness :
    (runBoot initBootState [BootOp.inc 50 "loading", BootOp.setDetails "warm"]).bootProgress ≤
      (bootStep (runBoot initBootState [BootOp.inc 50 "loading", BootOp.setDetails "warm"])
        (BootOp.inc 60 "index")).bootProgress :=
  (C3_boot_progress_monotone [BootOp.inc 50 "loading", BootOp.setDetails "warm"]
    (BootOp.inc 60 "index") (by decide) (by decide)).1 (by decide)

/-- Counterexample to C3 as frozen: after `IncBootProgress 99` and
`IncBootProgress 5` the stored progress is 104; the subsequent `SetBooted`
call stores 100, strictly lowering the stored progress. -/
theorem C3_counterexample :
    (runBoot initBootState [BootOp.inc 99 "a", BootOp.inc 5 "b"]).bootProgress = 104 ∧
    (runBoot initBootState
      [BootOp.inc 99 "a", BootOp.inc 5 "b", BootOp.setBooted]).bootProgress = 100 ∧
    (runBoot initBootState
        [BootOp.inc 99 "a", BootOp.inc 5 "b", BootOp.setBooted]).bootProgress <
      (runBoot initBootState [BootOp.inc 99 "a", BootOp.inc 5 "b"]).bootProgress := by
  decide

/-- C5 (amended): for a serialization of `IncBootProgress` calls with
positive non-overflowing deltas starting from progress 0, if the deltas sum
to at least 100 then the final progress equals the sum of the shortest
prefix of the deltas whose running total reaches 100 (not necessarily the
sum of all deltas), that value is at least 100, and `IsBooted` returns true
afterwards. -/
theorem C5_final_progress_is_applied_prefix_sum (calls : List (Int × String))
    (hg : ∀ c ∈ calls, goodDelta c.1 = true)
    (hsum : 100 ≤ (calls.map Prod.fst).sum) :
    (runIncs initBootState calls).bootProgress = (appliedPrefix 0 (calls.map Prod.fst)).sum ∧
    100 ≤ (runIncs initBootState calls).bootProgress ∧
    IsBooted (runIncs initBootState calls) = true := by
  have h := runIncs_progress calls initBootState hg (by decide) (by decide)
  have h2 := appliedPrefix_sum_ge (calls.map Prod.fst) 0 (by simpa using hsum)
  have hzero : (initBootState.bootProgress : Int) = 0 := rfl
  rw [hzero] at h
  refine ⟨by simpa using h, ?_, ?_⟩
  · rw [h]
    simpa using h2
  · simp only [IsBooted, decide_eq_true_eq]
    rw [h]
    simpa using h2

/-- Witness for `C5_final_progress_is_applied_prefix_sum`. -/
theorem C5_final_progress_witness :
    IsBooted (runIncs initBootState [((50 : Int), "a"), ((60 : Int), "b")]) = true :=
  (C5_final_progress_is_applied_prefix_sum [((50 : Int), "a"), ((60 : Int), "b")]
    (by decide) (by decide)).2.2

/-- Counterexample to C5 as frozen: the serialization `[100, 1]` has deltas
summing to 101 ≥ 100, yet the final progress is 100, not the sum of all the
deltas. -/
theorem C5_counterexample :
    100 ≤ ([(100 : Int), 1].sum) ∧
    (runIncs initBootState [((100 : Int), "a"), ((1 : Int), "b")]).bootProgress = 100 ∧
    (runIncs initBootState [((100 : Int), "a"), ((1 : Int), "b")]).bootProgress ≠
      [(100 : Int), 1].sum := by
  decide

/-! ## Sessions (`session.go`) -/

/-- `WrongAuthCount` is a process-wide Go `int`; `NeedCaptcha` compares it
against the fixed threshold 3. -/
def NeedCaptcha (wrongAuthCount : Int) : Bool := 3 < wrongAuthCount

/-- `WorkspaceSession` record. -/
structure WorkspaceSession where
  AccessAuthCode : String
  Captcha : String
deriving DecidableEq, Repr

/-- The Go map `map[string]*WorkspaceSession`, modelled extensionally.  A
stored nil pointer and an absent key behave identically in the source (both
fail the `nil == ret` test), so both are `none`. -/
def WorkspaceMap : Type := String → Option WorkspaceSession

/-- `SessionData`; `Workspaces = none` models the nil Go map. -/
structure SessionData where
  Workspaces : Option WorkspaceMap

/-- The zero-value entry `&WorkspaceSession{}`. -/
def emptyWorkspaceSession : WorkspaceSession := { AccessAuthCode := "", Captcha := "" }

/-- Map lookup through the possibly-nil `Workspaces` map (reading a nil Go
map yields the zero value, here `none`). -/
def sessionLookup (session : SessionData) (k : String) : Option WorkspaceSession :=
  match session.Workspaces with
  | none => none
  | some m => m k

/-- `GetWorkspaceSession`: initializes the map if nil, returns the stored
entry for the active `WorkspaceDir` if present, otherwise creates, stores
and returns a fresh empty entry.  Returns the entry together with the
updated session. -/
def GetWorkspaceSession (workspaceDir : String) (session : SessionData) :
    WorkspaceSession × SessionData :=
  let m : WorkspaceMap := match session.Workspaces with
    | none => fun _ => none
    | some m => m
  match m workspaceDir with
  | some ws => (ws, { Workspaces := some m })
  | none =>
      (emptyWorkspaceSession,
       { Workspaces := some fun k =>
           if k = workspaceDir then some emptyWorkspaceSession else m k })

/-- `RemoveWorkspaceSession`: `delete(session.Workspaces, WorkspaceDir)`
(a no-op on a nil map). -/
def RemoveWorkspaceSession (workspaceDir : String) (session : SessionData) : SessionData :=
  match session.Workspaces with
  | none => session
  | some m => { Workspaces := some fun k => if k = workspaceDir then none else m k }

/-- C8: `NeedCaptcha` returns true iff the process-wide wrong-authorization
counter is strictly greater than 3; in particular it is false at 3 and true
at 4. -/
theorem C8_need_captcha_iff :
    (∀ wrongAuthCount : Int, NeedCaptcha wrongAuthCount = true ↔ 3 < wrongAuthCount) ∧
    NeedCaptcha 3 = false ∧ NeedCaptcha 4 = true := by
  refine ⟨fun c => ?_, by decide, by decide⟩
  simp [NeedCaptcha]

/-- C7: `RemoveWorkspaceSession` deletes exactly the entry keyed by the
currently active workspace path; the entry for every other workspace path
in that session is unchanged. -/
theorem C7_remove_only_current (workspaceDir : String) (session : SessionData) :
    sessionLookup (RemoveWorkspaceSession workspaceDir session) workspaceDir = none ∧
    ∀ k : String, k ≠ workspaceDir →
      sessionLookup (RemoveWorkspaceSession workspaceDir session) k =
        sessionLookup session k := by
  cases hsw : session.Workspaces with
  | none => simp [RemoveWorkspaceSession, sessionLookup, hsw]
  | some m =>
    constructor
    · simp [RemoveWorkspaceSession, sessionLookup, hsw]
    · intro k hk
      simp [RemoveWorkspaceSession, sessionLookup, hsw, hk]

/-- Witness for `C7_remove_only_current`: removing under `/w2` leaves the
`/w1` entry in place. -/
theorem C7_remove_only_current_witness :
    sessionLookup
      (RemoveWorkspaceSession "/w2"
        { Workspaces := some fun k => if k = "/w1" then some emptyWorkspaceSession else none })
      "/w1" =
    sessionLookup
      { Workspaces := some fun k => if k = "/w1" then some emptyWorkspaceSession else none }
      "/w1" :=
  (C7_remove_only_current "/w2"
    { Workspaces := some fun k => if k = "/w1" then some emptyWorkspaceSession else none }).2
    "/w1" (by decide)

/-- C9: `GetWorkspaceSession` always returns an entry that is stored under
the current workspace afterwards; when an entry already exists it returns
exactly that stored entry (its `AccessAuthCode` and `Captcha` fields
untouched) and every key's stored entry is unchanged; and an immediately
repeated call returns the same entry and the same session unchanged. -/
theorem C9_get_workspace_session (workspaceDir : String) (session : SessionData) :
    sessionLookup (GetWorkspaceSession workspaceDir session).2 workspaceDir =
      some (GetWorkspaceSession workspaceDir session).1 ∧
    (∀ ws, sessionLookup session workspaceDir = some ws →
      (GetWorkspaceSession workspaceDir session).1 = ws ∧
      ∀ k : String, sessionLookup (GetWorkspaceSession workspaceDir session).2 k =
        sessionLookup session k) ∧
    GetWorkspaceSession workspaceDir (GetWorkspaceSession workspaceDir session).2 =
      ((GetWorkspaceSession workspaceDir session).1,
        (GetWorkspaceSession workspaceDir session).2) := by
  cases hsw : session.Workspaces with
  | none =>
    refine ⟨?_, ?_, ?_⟩
    · simp [GetWorkspaceSession, sessionLookup, hsw]
    · intro ws hws
      simp [sessionLookup, hsw] at hws
    · simp [GetWorkspaceSession, sessionLookup, hsw]
  | some m =>
    cases hm : m workspaceDir with
    | some ws0 =>
      refine ⟨?_, ?_, ?_⟩
      · simp [GetWorkspaceSession, sessionLookup, hsw, hm]
      · intro ws hws
        simp only [sessionLookup, hsw] at hws
        rw [hm] at hws
        cases hws
        refine ⟨by simp [GetWorkspaceSession, hsw, hm], fun k => ?_⟩
        simp [GetWorkspaceSession, sessionLookup, hsw, hm]
      · simp [GetWorkspaceSession, sessionLookup, hsw, hm]
    | none =>
      refine ⟨?_, ?_, ?_⟩
      · simp [GetWorkspaceSession, sessionLookup, hsw, hm]
      · intro ws hws
        simp only [sessionLookup, hsw] at hws
        rw [hm] at hws
        cases hws
      · simp [GetWorkspaceSession, sessionLookup, hsw, hm]

/-- Witness for `C9_get_workspace_session`: an existing `/w1` entry is
returned unchanged. -/
theorem C9_get_workspace_session_witness :
    (GetWorkspaceSession "/w1"
      { Workspaces := some fun k =>
          if k = "/w1" then some { AccessAuthCode := "c", Captcha := "x" } else none }).1 =
      { AccessAuthCode := "c", Captcha := "x" } :=
  ((C9_get_workspace_session "/w1"
    { Workspaces := some fun k =>
        if k = "/w1" then some { AccessAuthCode := "c", Captcha := "x" } else none }).2.1
    { AccessAuthCode := "c", Captcha := "x" } (by simp [sessionLookup])).1

/-! ## Workspace lock release (`UnlockWorkspace` in `working.go`) -/

/-- Environment for `UnlockWorkspace`: whether the flock handle
`WorkspaceLock` is non-nil, whether the OS `Unlock` call would succeed,
whether `os.Remove` of the `.lock` marker would succeed, and whether the
marker file currently exists. -/
structure UnlockEnv where
  hasLock : Bool
  unlockOk : Bool
  removeOk : Bool
  markerExists : Bool
deriving DecidableEq, Repr

/-- Observable outcome of `UnlockWorkspace`. -/
structure UnlockResult where
  markerExists : Bool
  attemptedUnlock : Bool
  attemptedRemove : Bool
deriving DecidableEq, Repr

/-- `UnlockWorkspace`: returns immediately on a nil handle; on OS-unlock
failure logs and returns without touching the marker; only after a
successful unlock does it attempt to delete the marker file (a failed
delete is logged and left as is). -/
def UnlockWorkspace (env : UnlockEnv) : UnlockResult :=
  if !env.hasLock then
    { markerExists := env.markerExists, attemptedUnlock := false, attemptedRemove := false }
  else if !env.unlockOk then
    { markerExists := env.markerExists, attemptedUnlock := true, attemptedRemove := false }
  else
    { markerExists := if env.removeOk then false else env.markerExists,
      attemptedUnlock := true, attemptedRemove := true }

/-- C10: with a nil lock handle `UnlockWorkspace` is a complete no-op; when
the OS unlock fails it returns without attempting to delete the marker
file; and the marker delete is only ever attempted after a successful
unlock of a non-nil handle. -/
theorem C10_unlock_workspace_safe (env : UnlockEnv) :
    (env.hasLock = false → UnlockWorkspace env =
      { markerExists := env.markerExists, attemptedUnlock := false,
        attemptedRemove := false }) ∧
    (env.hasLock = true → env.unlockOk = false →
      (UnlockWorkspace env).attemptedRemove = false ∧
      (UnlockWorkspace env).markerExists = env.markerExists) ∧
    ((UnlockWorkspace env).attemptedRemove = true →
      env.hasLock = true ∧ env.unlockOk = true) := by
  obtain ⟨h, u, r, m⟩ := env
  cases h <;> cases u <;> cases r <;> cases m <;> decide

/-- Witness for `C10_unlock_workspace_safe`: a failing OS unlock leaves the
marker file untouched. -/
theorem C10_unlock_workspace_safe_witness :
    (UnlockWorkspace
      { hasLock := true, unlockOk := false, removeOk := true,
        markerExists := true }).attemptedRemove = false ∧
    (UnlockWorkspace
      { hasLock := true, unlockOk := false, removeOk := true,
        markerExists := true }).markerExists = true :=
  (C10_unlock_workspace_safe
    { hasLock := true, unlockOk := false, removeOk := true, markerExists := true }).2.1
    (by decide) (by decide)

/-! ## Access-authorization gate (`initEnvVars` and `Boot` in `working.go`) -/

/-- Go `strconv.ParseBool`: accepts exactly these twelve strings. -/
def ParseBool (s : String) : Option Bool :=
  if s = "1" ∨ s = "t" ∨ s = "T" ∨ s = "TRUE" ∨ s = "true" ∨ s = "True" then some true
  else if s = "0" ∨ s = "f" ∨ s = "F" ∨ s = "FALSE" ∨ s = "false" ∨ s = "False" then some false
  else none

/-- `initEnvVars` as written: parses `SIYUAN_ACCESS_AUTH_CODE_BYPASS` (an
unset variable reads as `""`); on parse failure the code assigns `true`,
although the function's own doc comment states the default on parse failure
is `false`. -/
def initEnvVars (envBypass : String) : Bool :=
  match ParseBool envBypass with
  | some b => b
  | none => true

/-- `initEnvVars` as its doc comment describes it (parse failure defaults
the bypass to `false`), for comparison with the code. -/
def initEnvVarsDocumented (envBypass : String) : Bool :=
  match ParseBool envBypass with
  | some b => b
  | none => false

/-- Outcome of the container gate inside `Boot`. -/
inductive GateResult where
  | proceed
  | exit (code : Nat)
deriving DecidableEq, Repr

/-- The container access-auth-code gate inside `Boot` (lines 108–126): when
running in a container with an empty access auth code, boot is interrupted
with `os.Exit(1)` unless the bypass flag is set. -/
def bootAccessAuthGate (runInContainer : Bool) (accessAuthCode : String)
    (bypass : Bool) : GateResult :=
  if runInContainer then
    if accessAuthCode = "" then
      if bypass then GateResult.proceed else GateResult.exit 1
    else GateResult.proceed
  else GateResult.proceed

/-- The gate with the bypass computed by `initEnvVars` as coded. -/
def bootAuthGateAsCoded (runInContainer : Bool)
    (accessAuthCode envBypass : String) : GateResult :=
  bootAccessAuthGate runInContainer accessAuthCode (initEnvVars envBypass)

/-- The gate with the bypass computed as `initEnvVars`'s doc comment
describes. -/
def bootAuthGateAsDocumented (runInContainer : Bool)
    (accessAuthCode envBypass : String) : GateResult :=
  bootAccessAuthGate runInContainer accessAuthCode (initEnvVarsDocumented envBypass)

/-- C1: in a container with an empty access auth code and the bypass
environment variable unset (`""`) or unparseable, the code as written
proceeds with the boot, because `initEnvVars` assigns `true` on parse
failure; under the behaviour `initEnvVars`'s own doc comment describes
(default `false` on parse failure) the same input exits with code 1, as the
claim states. -/
theorem C1_auth_gate_bypass_default_bug :
    bootAuthGateAsCoded true "" "" = GateResult.proceed ∧
    bootAuthGateAsCoded true "" "not-a-bool" = GateResult.proceed ∧
    initEnvVars "" = true ∧
    initEnvVarsDocumented "" = false ∧
    bootAuthGateAsDocumented true "" "" = GateResult.exit 1 ∧
    bootAuthGateAsDocumented true "" "not-a-bool" = GateResult.exit 1 := by
  decide

/-! ## Workspace resolution (`initWorkspaceDir` and the path registry) -/

/-- `logging.ExitCodeInitWorkspaceErr`, the distinguished exit code of the
external `siyuan-note/logging` package for workspace-initialization
failures. -/
def ExitCodeInitWorkspaceErr : Nat := 25

/-- `strings.TrimRight(d, " \t\n")`: drops trailing characters of the
cutset, written over the character list so it evaluates by reduction. -/
def trimRightCutset (s : String) : String :=
  ⟨(s.data.reverse.dropWhile fun c => c == ' ' || c == '\t' || c == '\n').reverse⟩

/-- Accumulator loop of `gulu.Str.RemoveDuplicatedElem`. -/
def removeDupGo : List String → List String → List String
  | [], acc => acc
  | x :: xs, acc => if x ∈ acc then removeDupGo xs acc else removeDupGo xs (acc ++ [x])

/-- `gulu.Str.RemoveDuplicatedElem`: removes duplicates keeping the first
occurrence of each element. -/
def removeDuplicatedElem (xs : List String) : List String := removeDupGo xs []

theorem mem_removeDupGo (x : String) :
    ∀ (xs acc : List String), x ∈ removeDupGo xs acc ↔ x ∈ xs ∨ x ∈ acc := by
  intro xs
  induction xs with
  | nil => intro acc; simp [removeDupGo]
  | cons y ys ih =>
    intro acc
    by_cases hy : y ∈ acc
    · rw [removeDupGo, if_pos hy, ih]
      simp only [List.mem_cons]
      constructor
      · tauto
      · rintro ((rfl | h) | h) <;> tauto
    · rw [removeDupGo, if_neg hy, ih]
      simp only [List.mem_cons, List.mem_append, List.mem_singleton]
      tauto

theorem mem_removeDuplicatedElem (x : String) (xs : List String) :
    x ∈ removeDuplicatedElem xs ↔ x ∈ xs := by
  simp [removeDuplicatedElem, mem_removeDupGo]

theorem removeDupGo_concat (x : String) :
    ∀ (ys acc : List String),
      removeDupGo (ys ++ [x]) acc =
        if x ∈ removeDupGo ys acc then removeDupGo ys acc
        else removeDupGo ys acc ++ [x] := by
  intro ys
  induction ys with
  | nil => intro acc; simp [removeDupGo]
  | cons y ys ih =>
    intro acc
    by_cases hy : y ∈ acc
    · simp only [List.cons_append, removeDupGo, if_pos hy]
      exact ih acc
    · simp only [List.cons_append, removeDupGo, if_neg hy]
      exact ih (acc ++ [y])

theorem removeDuplicatedElem_concat_of_not_mem (x : String) (ys : List String)
    (hx : x ∉ ys) : removeDuplicatedElem (ys ++ [x]) = removeDuplicatedElem ys ++ [x] := by
  have h : x ∉ removeDupGo ys [] := by
    rw [mem_removeDupGo]
    simp [hx]
  simp [removeDuplicatedElem, removeDupGo_concat, h]

/-- The filesystem/environment view `initWorkspaceDir` consumes:
whether `~/.config/siyuan/workspace.json` exists, its parsed contents
(`none` models a read/parse failure), the directory predicate, the home
directory, the Windows `USERPROFILE` handling, and whether each fallible
side effect (conf-dir creation, default-workspace creation, registry
write) would succeed. -/
structure BootFS where
  confExists : Bool
  readResult : Option (List String)
  isDir : String → Bool
  homeDir : String
  isWindows : Bool
  userProfile : String
  mkdirConfOk : Bool
  mkdirDefaultOk : Bool
  writeOk : Bool

/-- `filepath.Join` on already-clean segments. -/
def joinPath (a b : String) : String := a ++ "/" ++ b

/-- `defaultWorkspaceDir`: `~/SiYuan`, except on Windows with a non-empty
`USERPROFILE`, where it is `%USERPROFILE%/SiYuan`. -/
def defaultWorkspaceDir (fs : BootFS) : String :=
  if fs.isWindows = true ∧ fs.userProfile ≠ "" then joinPath fs.userProfile "SiYuan"
  else joinPath fs.homeDir "SiYuan"

/-- `ReadWorkspacePaths`: on a read/parse failure the returned slice is
empty (and an error is reported, which `initWorkspaceDir` ignores);
otherwise each entry is trimmed of trailing `" \t\n"`, entries no longer
resolving to a directory are dropped, and duplicates are removed keeping
first occurrences. -/
def ReadWorkspacePaths (fs : BootFS) : List String :=
  match fs.readResult with
  | none => []
  | some raw => removeDuplicatedElem ((raw.map trimRightCutset).filter fs.isDir)

/-- `WriteWorkspacePaths`: deduplicates, marshals (marshalling a string
slice cannot fail) and writes the registry file; yields the content written
or an error when the write fails. -/
def WriteWorkspacePaths (writeOk : Bool) (workspacePaths : List String) :
    Except String (List String) :=
  if writeOk then Except.ok (removeDuplicatedElem workspacePaths)
  else Except.error "write workspace conf failed"

/-- Outcome of `initWorkspaceDir`: the resolved workspace directory plus
the registry content persisted, or a process exit. -/
inductive InitResult where
  | ok (workspaceDir : String) (written : List String)
  | exit (code : Nat)
deriving DecidableEq, Repr

/-- Tail of `initWorkspaceDir`: append the resolved workspace to the
registry slice and persist; a write error is logged and exits the
process. -/
def finishInitWorkspace (fs : BootFS) (paths : List String) (wd : String) : InitResult :=
  match WriteWorkspacePaths fs.writeOk (paths ++ [wd]) with
  | Except.error _ => InitResult.exit ExitCodeInitWorkspaceErr
  | Except.ok written => InitResult.ok wd written

/-- `initWorkspaceDir`: create the user conf dir when the registry file is
absent (exit on failure); pick the workspace — a non-empty `--workspace`
argument, else the last registry entry when the registry file exists and
parses non-empty, else the platform default; if the pick is not an existing
directory, create the default directory (exit on failure) and use it;
append the resolved workspace to the registry slice and persist. -/
def initWorkspaceDir (fs : BootFS) (workspaceArg : String) : InitResult :=
  if ¬fs.confExists = true ∧ ¬fs.mkdirConfOk = true then
    InitResult.exit ExitCodeInitWorkspaceErr
  else
    let workspacePaths := if fs.confExists then ReadWorkspacePaths fs else []
    let chosen :=
      if workspaceArg ≠ "" then workspaceArg
      else if fs.confExists then
        if 0 < workspacePaths.length then workspacePaths.getLastD ""
        else defaultWorkspaceDir fs
      else defaultWorkspaceDir fs
    if fs.isDir chosen then finishInitWorkspace fs workspacePaths chosen
    else if ¬fs.mkdirDefaultOk = true then InitResult.exit ExitCodeInitWorkspaceErr
    else finishInitWorkspace fs workspacePaths (defaultWorkspaceDir fs)

/-- The registry entries the resolver starts from: the read registry when
the conf file exists, the nil slice otherwise. -/
def regRead (fs : BootFS) : List String :=
  if fs.confExists then ReadWorkspacePaths fs else []

/-- The target `initWorkspaceDir` resolves to: the override when non-empty,
else the last registry entry when the registry file exists and is
non-empty, else the default; replaced by the default when not an existing
directory. -/
def resolveTarget (fs : BootFS) (arg : String) : String :=
  let workspacePaths := if fs.confExists then ReadWorkspacePaths fs else []
  let chosen :=
    if arg ≠ "" then arg
    else if fs.confExists then
      if 0 < workspacePaths.length then workspacePaths.getLastD ""
      else defaultWorkspaceDir fs
    else defaultWorkspaceDir fs
  if fs.isDir chosen then chosen else defaultWorkspaceDir fs

theorem finishInitWorkspace_ok {fs : BootFS} {paths : List String} {x wd : String}
    {written : List String}
    (h : finishInitWorkspace fs paths x = InitResult.ok wd written) :
    fs.writeOk = true ∧ wd = x ∧ written = removeDuplicatedElem (paths ++ [x]) := by
  by_cases hw : fs.writeOk = true
  · rw [finishInitWorkspace, WriteWorkspacePaths, if_pos hw] at h
    cases h
    exact ⟨hw, rfl, rfl⟩
  · rw [finishInitWorkspace, WriteWorkspacePaths, if_neg hw] at h
    cases h

theorem initWorkspaceDir_ok_shape {fs : BootFS} {arg wd : String} {written : List String}
    (h : initWorkspaceDir fs arg = InitResult.ok wd written) :
    fs.writeOk = true ∧ written = removeDuplicatedElem (regRead fs ++ [wd]) ∧
    (fs.isDir wd = true ∨ wd = defaultWorkspaceDir fs) := by
  simp only [initWorkspaceDir] at h
  rw [regRead]
  split_ifs at h <;>
    first
    | (obtain ⟨hw, rfl, rfl⟩ := finishInitWorkspace_ok h
       refine ⟨hw, by simp_all, by simp_all⟩)

theorem initWorkspaceDir_resolves (fs : BootFS) (arg : String)
    (hconf : fs.mkdirConfOk = true) (hmk : fs.mkdirDefaultOk = true)
    (hw : fs.writeOk = true) :
    initWorkspaceDir fs arg =
      InitResult.ok (resolveTarget fs arg)
        (removeDuplicatedElem (regRead fs ++ [resolveTarget fs arg])) := by
  rw [initWorkspaceDir, resolveTarget, regRead]
  simp only [hconf, not_true, and_false, if_false]
  split_ifs <;> simp_all [finishInitWorkspace, WriteWorkspacePaths]

/-- C2 (amended): if persisting the path registry fails during workspace
resolution, the error is logged and the process exits with the
workspace-initialization error code; boot does not proceed with an
unpersisted registry. -/
theorem C2_registry_write_failure_exits (fs : BootFS) (arg : String)
    (hconf : fs.mkdirConfOk = true) (hmk : fs.mkdirDefaultOk = true)
    (hw : fs.writeOk = false) :
    initWorkspaceDir fs arg = InitResult.exit ExitCodeInitWorkspaceErr := by
  rw [initWorkspaceDir]
  simp only [hconf, not_true, and_false, if_false]
  split_ifs <;> simp_all [finishInitWorkspace, WriteWorkspacePaths]

/-- Witness for `C2_registry_write_failure_exits` at a concrete
environment. -/
theorem C2_registry_write_failure_exits_witness :
    initWorkspaceDir
      { confExists := true, readResult := some ["/home/u/SiYuan"],
        isDir := fun s => s == "/home/u/SiYuan", homeDir := "/home/u",
        isWindows := false, userProfile := "", mkdirConfOk := true,
        mkdirDefaultOk := true, writeOk := false } "" =
      InitResult.exit ExitCodeInitWorkspaceErr :=
  C2_registry_write_failure_exits
    { confExists := true, readResult := some ["/home/u/SiYuan"],
      isDir := fun s => s == "/home/u/SiYuan", homeDir := "/home/u",
      isWindows := false, userProfile := "", mkdirConfOk := true,
      mkdirDefaultOk := true, writeOk := false } "" rfl rfl rfl

/-- Counterexample to C2 as frozen: with a perfectly resolvable workspace
but a failing registry write, `initWorkspaceDir` terminates the process
with the workspace-initialization exit code instead of proceeding with an
unpersisted registry. -/
theorem C2_counterexample :
    initWorkspaceDir
      { confExists := true, readResult := some ["/w"],
        isDir := fun s => s == "/w", homeDir := "/h",
        isWindows := false, userProfile := "", mkdirConfOk := true,
        mkdirDefaultOk := true, writeOk := false } "" =
      InitResult.exit ExitCodeInitWorkspaceErr := by
  decide

/-- C4 (amended): workspace resolution preserves every registry entry that,
after trailing-whitespace trimming, still resolves to an existing
directory: whenever resolution completes, each such (trimmed) entry is
still present in the persisted registry file.  Entries no longer resolving
to a directory are dropped at read time, so the frozen claim's "every path"
does not hold. -/
theorem C4_surviving_entries_preserved (fs : BootFS) (arg : String)
    (raw : List String) (hconf : fs.confExists = true)
    (hread : fs.readResult = some raw) (p : String) (hp : p ∈ raw)
    (hdir : fs.isDir (trimRightCutset p) = true) (wd : String)
    (written : List String)
    (hok : initWorkspaceDir fs arg = InitResult.ok wd written) :
    trimRightCutset p ∈ written := by
  have hmem : trimRightCutset p ∈ ReadWorkspacePaths fs := by
    rw [ReadWorkspacePaths, hread, mem_removeDuplicatedElem]
    exact List.mem_filter.mpr ⟨List.mem_map_of_mem _ hp, hdir⟩
  obtain ⟨-, rfl, -⟩ := initWorkspaceDir_ok_shape hok
  rw [mem_removeDuplicatedElem, regRead, if_pos hconf]
  exact List.mem_append_left _ hmem

/-- Witness for `C4_surviving_entries_preserved`: the surviving entry
`/keep` is still in the persisted registry. -/
theorem C4_surviving_entries_preserved_witness :
    trimRightCutset "/keep" ∈
      removeDuplicatedElem
        (ReadWorkspacePaths
          { confExists := true, readResult := some ["/keep"],
            isDir := fun s => s == "/keep", homeDir := "/h",
            isWindows := false, userProfile := "", mkdirConfOk := true,
            mkdirDefaultOk := true, writeOk := true } ++ ["/keep"]) :=
  C4_surviving_entries_preserved
    { confExists := true, readResult := some ["/keep"],
      isDir := fun s => s == "/keep", homeDir := "/h",
      isWindows := false, userProfile := "", mkdirConfOk := true,
      mkdirDefaultOk := true, writeOk := true } "" ["/keep"] rfl rfl
    "/keep" (by decide) (by decide) "/keep" _ (by decide)

/-- Counterexample to C4 as frozen: the registry file contains `/gone`,
which is no longer a directory; after resolution the persisted file no
longer contains `/gone` — the resolver does auto-delete it. -/
theorem C4_counterexample :
    initWorkspaceDir
      { confExists := true, readResult := some ["/gone"],
        isDir := fun s => s == "/h/SiYuan", homeDir := "/h",
        isWindows := false, userProfile := "", mkdirConfOk := true,
        mkdirDefaultOk := true, writeOk := true } "" =
      InitResult.ok "/h/SiYuan" ["/h/SiYuan"] ∧
    "/gone" ∉ ["/h/SiYuan"] := by
  decide

/-- C6 (amended): workspace resolution selects the target in this order — a
non-empty explicit override wins unconditionally; otherwise the last element
of a non-empty registry; otherwise the platform default — and when the
chosen target is not an existing directory the resolver creates the default
directory and selects it instead of failing.  The selected workspace (never
the stale one) is appended before deduplication and is always present in
the persisted registry; it ends up as the most recent (last) entry whenever
it was not already present in the registry read at boot (deduplication
keeps first occurrences, so an already-present selection keeps its original
position instead of moving to the end). -/
theorem C6_workspace_resolution_priority (fs : BootFS) (arg : String)
    (hconf : fs.mkdirConfOk = true) (hmk : fs.mkdirDefaultOk = true)
    (hw : fs.writeOk = true) :
    (arg ≠ "" → fs.isDir arg = true →
      initWorkspaceDir fs arg =
        InitResult.ok arg (removeDuplicatedElem (regRead fs ++ [arg]))) ∧
    (arg ≠ "" → fs.isDir arg = false →
      initWorkspaceDir fs arg =
        InitResult.ok (defaultWorkspaceDir fs)
          (removeDuplicatedElem (regRead fs ++ [defaultWorkspaceDir fs]))) ∧
    (arg = "" → fs.confExists = true → 0 < (ReadWorkspacePaths fs).length →
      fs.isDir ((ReadWorkspacePaths fs).getLastD "") = true →
      initWorkspaceDir fs arg =
        InitResult.ok ((ReadWorkspacePaths fs).getLastD "")
          (removeDuplicatedElem (regRead fs ++ [(ReadWorkspacePaths fs).getLastD ""]))) ∧
    (arg = "" → fs.confExists = false ∨ ReadWorkspacePaths fs = [] →
      initWorkspaceDir fs arg =
        InitResult.ok (defaultWorkspaceDir fs)
          (removeDuplicatedElem (regRead fs ++ [defaultWorkspaceDir fs]))) ∧
    (∀ t written, initWorkspaceDir fs arg = InitResult.ok t written →
      (fs.isDir t = true ∨ t = defaultWorkspaceDir fs) ∧ t ∈ written ∧
        (t ∉ regRead fs → written.getLast? = some t)) := by
  have hres := initWorkspaceDir_resolves fs arg hconf hmk hw
  refine ⟨?_, ?_, ?_, ?_, ?_⟩
  · intro ha hd
    have ht : resolveTarget fs arg = arg := by
      rw [resolveTarget]
      simp [ha, hd]
    rw [hres, ht]
  · intro ha hd
    have ht : resolveTarget fs arg = defaultWorkspaceDir fs := by
      rw [resolveTarget]
      simp [ha, hd]
    rw [hres, ht]
  · intro ha hc hlen hd
    subst ha
    have ht : resolveTarget fs "" = (ReadWorkspacePaths fs).getLastD "" := by
      rw [resolveTarget]
      simp only [List.getLastD_eq_getLast?] at hd
      simp [hc, hlen, hd]
    rw [hres, ht]
  · intro ha hor
    subst ha
    have ht : resolveTarget fs "" = defaultWorkspaceDir fs := by
      rw [resolveTarget]
      rcases hor with hc | hnil
      · simp [hc]
      · simp [hnil]
    rw [hres, ht]
  · intro t written hok
    obtain ⟨-, rfl, hd⟩ := initWorkspaceDir_ok_shape hok
    refine ⟨hd, ?_, ?_⟩
    · rw [mem_removeDuplicatedElem]
      exact List.mem_append_right _ (by simp)
    · intro hnot
      rw [removeDuplicatedElem_concat_of_not_mem _ _ hnot]
      exact List.getLast?_concat _

/-- Witness for `C6_workspace_resolution_priority`: an existing override
directory is selected and appended. -/
theorem C6_workspace_resolution_priority_witness :
    initWorkspaceDir
      { confExists := true, readResult := some [],
        isDir := fun s => s == "/w", homeDir := "/h",
        isWindows := false, userProfile := "", mkdirConfOk := true,
        mkdirDefaultOk := true, writeOk := true } "/w" =
      InitResult.ok "/w"
        (removeDuplicatedElem
          (regRead
            { confExists := true, readResult := some [],
              isDir := fun s => s == "/w", homeDir := "/h",
              isWindows := false, userProfile := "", mkdirConfOk := true,
              mkdirDefaultOk := true, writeOk := true } ++ ["/w"])) :=
  (C6_workspace_resolution_priority
    { confExists := true, readResult := some [],
      isDir := fun s => s == "/w", homeDir := "/h",
      isWindows := false, userProfile := "", mkdirConfOk := true,
      mkdirDefaultOk := true, writeOk := true } "/w" rfl rfl rfl).1
    (by decide) (by decide)

/-- Counterexample to C6 as frozen: the registry already contains the
override `/b` (in first position, with `/a` after it); the resolver selects
`/b` and persists `[/b, /a]`, whose most recent (last) entry is `/a`, not
the selected workspace `/b`. -/
theorem C6_counterexample :
    initWorkspaceDir
      { confExists := true, readResult := some ["/b", "/a"],
        isDir := fun s => s == "/b" || s == "/a", homeDir := "/h",
        isWindows := false, userProfile := "", mkdirConfOk := true,
        mkdirDefaultOk := true, writeOk := true } "/b" =
      InitResult.ok "/b" ["/b", "/a"] ∧
    ["/b", "/a"].getLast? ≠ some "/b" := by
  decide

end SiYuan
